import Mathlib

/-!
Verification of the filter engine of `file_filter_app.py`.

The core under verification is the function `filter_results` (lines 104-143
of `file_filter_app.py`): it walks a list of file-metadata records and keeps
those that satisfy a name-pattern predicate (Python `re.search` with
`re.IGNORECASE` over `os.path.basename`) and up to three inclusive date
ranges over the record's creation / modification / access timestamps, which
are parsed from strings with `datetime.fromisoformat`.

The embedding below models:
* a fragment of Python regular expressions (literals, `.`, character
  classes, escapes, grouping, alternation, `*`, `+`, `?` and their lazy
  variants) with a fallible compiler mirroring `re.compile`; constructs
  outside the fragment (anchors, brace quantifiers, backreferences, group
  extensions, hex escapes) compile to an `unsupported` error, while
  genuinely malformed patterns compile to an `invalid` error as in Python;
* naive `datetime` values compared lexicographically field by field,
  exactly as Python compares naive datetimes, with `datetime.combine`,
  `datetime.min.time()` and `datetime.max.time()`;
* a fragment of `datetime.fromisoformat` accepting naive ISO-8601 strings
  `YYYY-MM-DD` optionally followed by one separator character and
  `HH:MM[:SS[.ffffff]]` (1-6 fractional digits); timezone-aware strings are
  outside the modelled fragment and are treated as unparseable;
* records as the dictionaries produced by the two providers, with every
  field optional since `filter_results` accesses them with `dict.get`;
* `filter_results` itself, as a function into `Except`: a Python exception
  escaping the loop is modelled as an `error` result.
-/

namespace FileFilter

/-! ## Regular expressions: a fragment of Python `re` -/

/-- Errors raised by the modelled `re.compile`: `invalid` corresponds to
Python's `re.error` on a malformed pattern, `unsupported` marks patterns
that use constructs outside the modelled fragment. -/
inductive RegexErr where
  | invalid (msg : String)
  | unsupported (msg : String)
deriving DecidableEq, Repr

/-- One item of a character class `[...]`: a single character, a range, or
one of the predefined classes `\d \D \w \W \s \S`. -/
inductive ClassItem where
  | single (c : Char)
  | range (lo hi : Char)
  | digit
  | notDigit
  | word
  | notWord
  | space
  | notSpace
deriving DecidableEq, Repr

/-- Abstract syntax of the modelled regex fragment. -/
inductive RE where
  | eps
  | lit (c : Char)
  | any
  | cls (neg : Bool) (items : List ClassItem)
  | seq (a b : RE)
  | alt (a b : RE)
  | star (a : RE)
deriving DecidableEq, Repr

/-- Python `\w`: alphanumeric or underscore (ASCII fragment). -/
def isWordChar (c : Char) : Bool := c.isAlphanum || c = '_'

/-- Python `\s`: ASCII whitespace characters. -/
def isSpaceChar (c : Char) : Bool :=
  c = ' ' || c = '\t' || c = '\n' || c = '\r' || c = '\x0b' || c = '\x0c'

/-- Character comparison, case-insensitive when `ci` is set
(the `re.IGNORECASE` flag of the source). -/
def charEq (ci : Bool) (p c : Char) : Bool :=
  if ci then p.toLower = c.toLower else p = c

/-- Does character `c` match one class item, honouring `re.IGNORECASE`? -/
def itemMatch (ci : Bool) (it : ClassItem) (c : Char) : Bool :=
  match it with
  | .single p => charEq ci p c
  | .range lo hi =>
      (decide (lo ≤ c) && decide (c ≤ hi)) ||
        (ci && ((decide (lo ≤ c.toLower) && decide (c.toLower ≤ hi)) ||
                (decide (lo ≤ c.toUpper) && decide (c.toUpper ≤ hi))))
  | .digit => c.isDigit
  | .notDigit => !c.isDigit
  | .word => isWordChar c
  | .notWord => !(isWordChar c)
  | .space => isSpaceChar c
  | .notSpace => !(isSpaceChar c)

/-- Does character `c` match the class `[...]` (possibly negated)? -/
def clsMatch (ci : Bool) (neg : Bool) (items : List ClassItem) (c : Char) : Bool :=
  let m := items.any (fun it => itemMatch ci it c)
  if neg then !m else m

/-- Does the regex accept the empty string? -/
def nullable : RE → Bool
  | .eps => true
  | .lit _ => false
  | .any => false
  | .cls _ _ => false
  | .seq a b => nullable a && nullable b
  | .alt a b => nullable a || nullable b
  | .star _ => true

/-- Brzozowski derivative of the regex by one character; `.cls false []`
is the empty (never-matching) regex. Python `.` does not match a newline
(the source sets no `DOTALL` flag). -/
def reDeriv (ci : Bool) (r : RE) (c : Char) : RE :=
  match r with
  | .eps => .cls false []
  | .lit p => if charEq ci p c then .eps else .cls false []
  | .any => if c = '\n' then .cls false [] else .eps
  | .cls neg items => if clsMatch ci neg items c then .eps else .cls false []
  | .seq a b =>
      if nullable a then .alt (.seq (reDeriv ci a c) b) (reDeriv ci b c)
      else .seq (reDeriv ci a c) b
  | .alt a b => .alt (reDeriv ci a c) (reDeriv ci b c)
  | .star a => .seq (reDeriv ci a c) (.star a)

/-- Does some prefix of the character list match the regex? -/
def matchHere (ci : Bool) (r : RE) : List Char → Bool
  | [] => nullable r
  | c :: cs => nullable r || matchHere ci (reDeriv ci r c) cs

/-- Unanchored search: does the regex match starting at some position?
This is the boolean content of Python `re.search`. -/
def searchIn (ci : Bool) (r : RE) : List Char → Bool
  | [] => nullable r
  | c :: cs => matchHere ci r (c :: cs) || searchIn ci r cs

/-- Resolution of an escape `\c` inside a character class. Unknown
alphabetic escapes are errors as in Python; numeric and `\x`-style escapes
are outside the modelled fragment. -/
def classEscape (c : Char) : Except RegexErr ClassItem :=
  if c = 'd' then .ok .digit
  else if c = 'D' then .ok .notDigit
  else if c = 'w' then .ok .word
  else if c = 'W' then .ok .notWord
  else if c = 's' then .ok .space
  else if c = 'S' then .ok .notSpace
  else if c = 'n' then .ok (.single '\n')
  else if c = 't' then .ok (.single '\t')
  else if c = 'r' then .ok (.single '\r')
  else if c = 'f' then .ok (.single '\x0c')
  else if c = 'v' then .ok (.single '\x0b')
  else if c = 'a' then .ok (.single '\x07')
  else if c = 'b' then .ok (.single '\x08')
  else if c = 'x' || c = 'u' || c = 'U' || c = 'N' then
    .error (.unsupported "coded escape")
  else if c.isAlpha then .error (.invalid "bad escape")
  else if c.isDigit then .error (.unsupported "numeric escape")
  else .ok (.single c)

/-- Resolution of an escape `\c` at top level: word boundaries and string
anchors are outside the modelled fragment. -/
def atomEscape (c : Char) : Except RegexErr ClassItem :=
  if c = 'b' || c = 'B' || c = 'A' || c = 'Z' then
    .error (.unsupported "boundary or anchor escape")
  else classEscape c

/-- Parse the items of a character class after `[` (and after an optional
leading `^`). `first` is true before the first item, where `]` is a
literal. -/
def parseClassItems : Nat → Bool → List ClassItem → List Char →
    Except RegexErr (List ClassItem × List Char)
  | 0, _, _, _ => .error (.unsupported "pattern too deep")
  | _ + 1, _, _, [] => .error (.invalid "unterminated character set")
  | fuel + 1, first, acc, c :: rest =>
      if c = ']' && !first then .ok (acc.reverse, rest)
      else
        match (if c = '\\' then
                 match rest with
                 | [] => Except.error (RegexErr.invalid "bad escape")
                 | e :: rest2 => (classEscape e).map (fun it => (it, rest2))
               else Except.ok (ClassItem.single c, rest) :
                Except RegexErr (ClassItem × List Char)) with
        | .error err => .error err
        | .ok (item, rest2) =>
            match rest2 with
            | '-' :: ']' :: rest3 =>
                -- a trailing dash is a literal dash
                .ok ((ClassItem.single '-' :: item :: acc).reverse, rest3)
            | '-' :: d :: rest3 =>
                match (if d = '\\' then
                         match rest3 with
                         | [] => Except.error (RegexErr.invalid "bad escape")
                         | e :: rest4 => (classEscape e).map (fun it => (it, rest4))
                       else Except.ok (ClassItem.single d, rest3) :
                        Except RegexErr (ClassItem × List Char)) with
                | .error err => .error err
                | .ok (hiItem, rest4) =>
                    match item, hiItem with
                    | .single lo, .single hi =>
                        if decide (lo ≤ hi) then
                          parseClassItems fuel false (ClassItem.range lo hi :: acc) rest4
                        else .error (.invalid "bad character range")
                    | _, _ => .error (.invalid "bad character range")
            | _ => parseClassItems fuel false (item :: acc) rest2

/-- Is the character a `*`, `+` or `?` quantifier? -/
def isQuantChar (c : Char) : Bool := c = '*' || c = '+' || c = '?'

/-- After a quantifier: allow one `?` (a lazy marker, which does not change
the boolean matching semantics) and reject a further quantifier, as
Python rejects multiple repeats. -/
def parseRepTail (r : RE) (cs : List Char) : Except RegexErr (RE × List Char) :=
  match cs with
  | '?' :: rest =>
      match rest with
      | c :: _ =>
          if isQuantChar c then .error (.invalid "multiple repeat")
          else if c = '{' then .error (.unsupported "brace quantifier")
          else .ok (r, rest)
      | [] => .ok (r, [])
  | c :: _ =>
      if c = '*' || c = '+' then .error (.invalid "multiple repeat")
      else if c = '{' then .error (.unsupported "brace quantifier")
      else .ok (r, cs)
  | [] => .ok (r, [])

/-- Parse the optional quantifier after an atom. `+` and `?` are expressed
through `seq`, `star` and `alt`. -/
def parseRep (a : RE) (cs : List Char) : Except RegexErr (RE × List Char) :=
  match cs with
  | '*' :: rest => parseRepTail (.star a) rest
  | '+' :: rest => parseRepTail (.seq a (.star a)) rest
  | '?' :: rest => parseRepTail (.alt a .eps) rest
  | '{' :: _ => .error (.unsupported "brace quantifier")
  | _ => .ok (a, cs)

mutual

/-- Parse an alternation `seq ('|' seq)*`. -/
def parseAlt : Nat → List Char → Except RegexErr (RE × List Char)
  | 0, _ => .error (.unsupported "pattern too deep")
  | fuel + 1, cs =>
      match parseSeq fuel cs with
      | .error e => .error e
      | .ok (r, rest) =>
          match rest with
          | '|' :: rest2 =>
              match parseAlt fuel rest2 with
              | .error e => .error e
              | .ok (r2, rest3) => .ok (.alt r r2, rest3)
          | _ => .ok (r, rest)

/-- Parse a (possibly empty) concatenation, stopping at `|`, `)` or the
end of the pattern. -/
def parseSeq : Nat → List Char → Except RegexErr (RE × List Char)
  | 0, _ => .error (.unsupported "pattern too deep")
  | fuel + 1, cs =>
      match cs with
      | [] => .ok (.eps, [])
      | ')' :: _ => .ok (.eps, cs)
      | '|' :: _ => .ok (.eps, cs)
      | _ =>
          match parseOne fuel cs with
          | .error e => .error e
          | .ok (r1, rest) =>
              match parseSeq fuel rest with
              | .error e => .error e
              | .ok (r2, rest2) => .ok (.seq r1 r2, rest2)

/-- Parse one atom together with its quantifier. -/
def parseOne : Nat → List Char → Except RegexErr (RE × List Char)
  | 0, _ => .error (.unsupported "pattern too deep")
  | fuel + 1, cs =>
      match parseAtom fuel cs with
      | .error e => .error e
      | .ok (a, rest) => parseRep a rest

/-- Parse one atom: a group, a class, an escape, `.` or a literal
character. Anchors and group extensions `(?...)` are outside the modelled
fragment; a quantifier with nothing to repeat is an error as in Python. -/
def parseAtom : Nat → List Char → Except RegexErr (RE × List Char)
  | 0, _ => .error (.unsupported "pattern too deep")
  | fuel + 1, cs =>
      match cs with
      | [] => .error (.invalid "nothing to parse")
      | '(' :: rest =>
          match rest with
          | '?' :: _ => .error (.unsupported "group extension")
          | _ =>
              match parseAlt fuel rest with
              | .error e => .error e
              | .ok (r, rest2) =>
                  match rest2 with
                  | ')' :: rest3 => .ok (r, rest3)
                  | _ => .error (.invalid "missing ), unterminated subpattern")
      | '[' :: rest =>
          match rest with
          | '^' :: rest1 =>
              match parseClassItems (rest1.length + 1) true [] rest1 with
              | .error e => .error e
              | .ok (items, rest2) => .ok (.cls true items, rest2)
          | _ =>
              match parseClassItems (rest.length + 1) true [] rest with
              | .error e => .error e
              | .ok (items, rest2) => .ok (.cls false items, rest2)
      | '\\' :: rest =>
          match rest with
          | [] => .error (.invalid "bad escape (end of pattern)")
          | e :: rest2 =>
              match atomEscape e with
              | .error err => .error err
              | .ok (.single c) => .ok (.lit c, rest2)
              | .ok item => .ok (.cls false [item], rest2)
      | '.' :: rest => .ok (.any, rest)
      | '^' :: _ => .error (.unsupported "anchor")
      | '$' :: _ => .error (.unsupported "anchor")
      | '*' :: _ => .error (.invalid "nothing to repeat")
      | '+' :: _ => .error (.invalid "nothing to repeat")
      | '?' :: _ => .error (.invalid "nothing to repeat")
      | c :: rest => .ok (.lit c, rest)

end

/-- Model of `re.compile`: parse the whole pattern; a leftover (necessarily
an unmatched `)`) is an error as in Python. The fuel is generous enough
for every pattern whose nesting is bounded by its length. -/
def reCompile (p : String) : Except RegexErr RE :=
  let cs := p.data
  match parseAlt (8 * cs.length + 8) cs with
  | .error e => .error e
  | .ok (r, []) => .ok r
  | .ok (_, _ :: _) => .error (.invalid "unbalanced parenthesis")

/-- Model of `re.search(pattern, s, re.IGNORECASE)` as used by the source
(line 115): compile the pattern, then search unanchored and
case-insensitively; the boolean is the truthiness of the match object. -/
def reSearch (p : String) (s : String) : Except RegexErr Bool :=
  match reCompile p with
  | .error e => .error e
  | .ok r => .ok (searchIn true r s.data)

/-! ## Dates and naive datetimes -/

/-- Model of Python `datetime.date` (as produced by the GUI date pickers
and passed as the range bounds of `filter_results`). -/
structure Date where
  year : Nat
  month : Nat
  day : Nat
deriving DecidableEq, Repr

/-- Model of Python `datetime.time`. -/
structure Time where
  hour : Nat
  minute : Nat
  second : Nat
  microsecond : Nat
deriving DecidableEq, Repr

/-- Model of a naive Python `datetime.datetime`. -/
structure DateTime where
  year : Nat
  month : Nat
  day : Nat
  hour : Nat
  minute : Nat
  second : Nat
  microsecond : Nat
deriving DecidableEq, Repr

/-- Python `datetime.min.time()`: midnight, `00:00:00.000000`. -/
def minTime : Time := ⟨0, 0, 0, 0⟩

/-- Python `datetime.max.time()`: `23:59:59.999999`. -/
def maxTime : Time := ⟨23, 59, 59, 999999⟩

/-- Python `datetime.combine(d, t)`. -/
def combine (d : Date) (t : Time) : DateTime :=
  ⟨d.year, d.month, d.day, t.hour, t.minute, t.second, t.microsecond⟩

/-- Python comparison `a < b` on naive datetimes: lexicographic on the
seven fields. -/
def DateTime.lt (a b : DateTime) : Bool :=
  if a.year ≠ b.year then decide (a.year < b.year)
  else if a.month ≠ b.month then decide (a.month < b.month)
  else if a.day ≠ b.day then decide (a.day < b.day)
  else if a.hour ≠ b.hour then decide (a.hour < b.hour)
  else if a.minute ≠ b.minute then decide (a.minute < b.minute)
  else if a.second ≠ b.second then decide (a.second < b.second)
  else decide (a.microsecond < b.microsecond)

/-- Python comparison `a <= b` on naive datetimes. -/
def DateTime.le (a b : DateTime) : Bool :=
  if a.year ≠ b.year then decide (a.year < b.year)
  else if a.month ≠ b.month then decide (a.month < b.month)
  else if a.day ≠ b.day then decide (a.day < b.day)
  else if a.hour ≠ b.hour then decide (a.hour < b.hour)
  else if a.minute ≠ b.minute then decide (a.minute < b.minute)
  else if a.second ≠ b.second then decide (a.second < b.second)
  else decide (a.microsecond ≤ b.microsecond)

/-- Python comparison `a <= b` on dates: lexicographic on the three
fields. -/
def Date.le (a b : Date) : Bool :=
  if a.year ≠ b.year then decide (a.year < b.year)
  else if a.month ≠ b.month then decide (a.month < b.month)
  else decide (a.day ≤ b.day)

/-! ## A fragment of `datetime.fromisoformat` -/

/-- Gregorian leap years. -/
def isLeap (y : Nat) : Bool := (y % 4 = 0 && y % 100 ≠ 0) || y % 400 = 0

/-- Days in a month, as validated by the `datetime` constructor. -/
def daysInMonth (y m : Nat) : Nat :=
  if m = 2 then (if isLeap y then 29 else 28)
  else if m = 4 || m = 6 || m = 9 || m = 11 then 30
  else 31

/-- Numeric value of a list of decimal digits. -/
def digitsToNat (l : List Char) : Nat :=
  l.foldl (fun acc c => acc * 10 + (c.toNat - '0'.toNat)) 0

/-- Take exactly `n` decimal digits from the front of the input. -/
def takeDigits : Nat → List Char → Option (List Char × List Char)
  | 0, cs => some ([], cs)
  | _ + 1, [] => none
  | n + 1, c :: cs =>
      if c.isDigit then (takeDigits n cs).map (fun p => (c :: p.1, p.2))
      else none

/-- Take up to `n` leading decimal digits. -/
def takeDigitsUpTo : Nat → List Char → List Char × List Char
  | 0, cs => ([], cs)
  | _ + 1, [] => ([], [])
  | n + 1, c :: cs =>
      if c.isDigit then
        let p := takeDigitsUpTo n cs
        (c :: p.1, p.2)
      else ([], c :: cs)

/-- Expect one specific character at the front of the input. -/
def expectChar (c : Char) : List Char → Option (List Char)
  | d :: rest => if d = c then some rest else none
  | [] => none

/-- Parse the time part `HH:MM[:SS[.ffffff]]` of an ISO string, which must
end the input. Fractions of 1 to 6 digits are accepted and padded to
microseconds. -/
def parseTimePart (cs : List Char) : Option (Nat × Nat × Nat × Nat) := do
  let (hd, r1) ← takeDigits 2 cs
  let r2 ← expectChar ':' r1
  let (mind, r3) ← takeDigits 2 r2
  let h := digitsToNat hd
  let mi := digitsToNat mind
  if h ≥ 24 ∨ mi ≥ 60 then none
  else
    match r3 with
    | [] => some (h, mi, 0, 0)
    | ':' :: r4 => do
        let (sd, r5) ← takeDigits 2 r4
        let s := digitsToNat sd
        if s ≥ 60 then none
        else
          match r5 with
          | [] => some (h, mi, s, 0)
          | '.' :: r6 =>
              let (fd, r7) := takeDigitsUpTo 6 r6
              if fd.length = 0 ∨ r7 ≠ [] then none
              else some (h, mi, s, digitsToNat fd * 10 ^ (6 - fd.length))
          | ',' :: r6 =>
              let (fd, r7) := takeDigitsUpTo 6 r6
              if fd.length = 0 ∨ r7 ≠ [] then none
              else some (h, mi, s, digitsToNat fd * 10 ^ (6 - fd.length))
          | _ => none
    | _ => none

/-- Modelled fragment of Python `datetime.fromisoformat`: naive strings
`YYYY-MM-DD` optionally followed by a single separator character and
`HH:MM[:SS[.ffffff]]`, with the calendar and clock fields validated as by
the `datetime` constructor. Timezone-aware strings (with a UTC offset
suffix) are outside the modelled fragment and yield `none`. -/
def fromisoformat (s : String) : Option DateTime := do
  let cs := s.data
  let (yd, r1) ← takeDigits 4 cs
  let r2 ← expectChar '-' r1
  let (md, r3) ← takeDigits 2 r2
  let r4 ← expectChar '-' r3
  let (dd, r5) ← takeDigits 2 r4
  let y := digitsToNat yd
  let m := digitsToNat md
  let d := digitsToNat dd
  if y = 0 ∨ m = 0 ∨ m > 12 ∨ d = 0 ∨ d > daysInMonth y m then none
  else
    match r5 with
    | [] => some ⟨y, m, d, 0, 0, 0, 0⟩
    | _ :: timePart => do
        let (h, mi, sec, us) ← parseTimePart timePart
        some ⟨y, m, d, h, mi, sec, us⟩

/-! ## Records and the filter engine -/

/-- Errors that `filter_results` can raise: `patternError` models the
`re.error` escaping from `re.search` on a malformed pattern, `valueError`
models the `ValueError` raised by `datetime.fromisoformat` on a string it
cannot parse (the string is carried as the error payload). -/
inductive FilterError where
  | patternError (e : RegexErr)
  | valueError (s : String)
deriving DecidableEq, Repr

/-- One record as produced by `run_powershell_command` or
`get_file_info_cross_platform`: a dictionary whose fields may be missing,
since `filter_results` reads them with `dict.get(key, '')`. -/
structure FileRecord where
  fullName : Option String
  creationTime : Option String
  lastWriteTime : Option String
  lastAccessTime : Option String
  length : Option Nat
deriving DecidableEq, Repr

/-- Is the character a path separator? The application targets Windows,
where `os.path.basename` splits on both separators. -/
def isSep (c : Char) : Bool := c = '/' || c = '\\'

/-- Model of `os.path.basename`: everything after the last path separator.
(Drive-relative prefixes such as `C:file` are outside the modelled
fragment.) -/
def basename (s : String) : String :=
  String.mk (s.data.foldl (fun acc c => if isSep c then [] else acc ++ [c]) [])

/-- Replacement of every occurrence of the character `Z` by `+00:00` in a
list of characters. -/
def replaceZchars : List Char → List Char
  | [] => []
  | c :: cs =>
      if c = 'Z' then '+' :: '0' :: '0' :: ':' :: '0' :: '0' :: replaceZchars cs
      else c :: replaceZchars cs

/-- Model of the Python call `s.replace('Z', '+00:00')` of lines 119-121:
every occurrence of `Z` is replaced (the pattern is a single character, so
character-wise replacement coincides with substring replacement). -/
def pyReplaceZ (s : String) : String := String.mk (replaceZchars s.data)

/-- Lines 119-121 of the source: parse one timestamp string, after
replacing `Z` with `+00:00`; an unparseable string raises `ValueError`. -/
def parseTimestamp (s : String) : Except FilterError DateTime :=
  let s2 := pyReplaceZ s
  match fromisoformat s2 with
  | some dt => .ok dt
  | none => .error (.valueError s2)

/-- Lines 113-116 of the source: the name predicate. The Python guard
`if name_pattern:` skips the predicate both for `None` and for the empty
string; otherwise `re.search` runs on the basename of `FullName` and an
invalid pattern raises `re.error`. -/
def nameCheck (name_pattern : Option String) (item : FileRecord) :
    Except FilterError Bool :=
  match name_pattern with
  | none => .ok true
  | some p =>
      if p = "" then .ok true
      else
        match reSearch p (basename (item.fullName.getD "")) with
        | .ok b => .ok b
        | .error e => .error (.patternError e)

/-- Line 124/130/136 of the source: with a lower bound set, the record is
skipped when its timestamp is strictly before the bound's day at
`datetime.min.time()`. -/
def failsFrom (bound : Option Date) (t : DateTime) : Bool :=
  match bound with
  | some d => DateTime.lt t (combine d minTime)
  | none => false

/-- Line 126/132/138 of the source: with an upper bound set, the record is
skipped when its timestamp is strictly after the bound's day at
`datetime.max.time()`. -/
def failsTo (bound : Option Date) (t : DateTime) : Bool :=
  match bound with
  | some d => DateTime.lt (combine d maxTime) t
  | none => false

/-- Lines 123-139 of the source: the chain of date-range tests, each
`continue` modelled as an early `false`. -/
def passes (cf ct mf mt af ad : Option Date)
    (creation_time modified_time accessed_time : DateTime) : Bool :=
  if failsFrom cf creation_time then false
  else if failsTo ct creation_time then false
  else if failsFrom mf modified_time then false
  else if failsTo mt modified_time then false
  else if failsFrom af accessed_time then false
  else if failsTo ad accessed_time then false
  else true

/-- The body of the loop of `filter_results` for one record: the name
predicate first (a failed name match skips the record before any timestamp
is parsed), then the three unconditional timestamp parses of lines
119-121, then the date-range chain. `ok true` means the record is kept. -/
def checkRecord (name_pattern : Option String) (cf ct mf mt af ad : Option Date)
    (item : FileRecord) : Except FilterError Bool :=
  match nameCheck name_pattern item with
  | .error e => .error e
  | .ok false => .ok false
  | .ok true =>
      match parseTimestamp (item.creationTime.getD "") with
      | .error e => .error e
      | .ok creation_time =>
          match parseTimestamp (item.lastWriteTime.getD "") with
          | .error e => .error e
          | .ok modified_time =>
              match parseTimestamp (item.lastAccessTime.getD "") with
              | .error e => .error e
              | .ok accessed_time =>
                  .ok (passes cf ct mf mt af ad
                        creation_time modified_time accessed_time)

/-- The accumulation loop of `filter_results`: records whose check is
`ok true` are appended in order; the first exception aborts the whole
call. -/
def filterRecords (check : FileRecord → Except FilterError Bool) :
    List FileRecord → Except FilterError (List FileRecord)
  | [] => .ok []
  | item :: rest =>
      match check item with
      | .error e => .error e
      | .ok keep =>
          match filterRecords check rest with
          | .error e => .error e
          | .ok tail => .ok (if keep then item :: tail else tail)

/-- Model of `filter_results(results, name_pattern, creation_date_from,
creation_date_to, modified_date_from, modified_date_to,
accessed_date_from, accessed_date_to)` (lines 104-143 of the source). -/
def filter_results (results : List FileRecord) (name_pattern : Option String)
    (creation_date_from creation_date_to modified_date_from modified_date_to
      accessed_date_from accessed_date_to : Option Date) :
    Except FilterError (List FileRecord) :=
  filterRecords
    (checkRecord name_pattern creation_date_from creation_date_to
      modified_date_from modified_date_to accessed_date_from accessed_date_to)
    results

/-! ## Spec-side vocabulary for the range semantics -/

/-- Spec reading of a lower bound: the timestamp is at or after the start
of the bound's calendar day (`00:00:00.000000`); an absent bound is
unconstrained. -/
def geStartOfDay (bound : Option Date) (t : DateTime) : Bool :=
  match bound with
  | some d => DateTime.le (combine d minTime) t
  | none => true

/-- Spec reading of an upper bound: the timestamp is at or before the end
of the bound's calendar day (`23:59:59.999999`); an absent bound is
unconstrained. -/
def leEndOfDay (bound : Option Date) (t : DateTime) : Bool :=
  match bound with
  | some d => DateTime.le t (combine d maxTime)
  | none => true

/-- Spec reading of one inclusive date range applied to a timestamp. -/
def inDateRange (lo hi : Option Date) (t : DateTime) : Bool :=
  geStartOfDay lo t && leEndOfDay hi t

/-! ## Concrete records used as witnesses -/

/-- A well-formed record named `Report_2022.pdf`, modified at the upper
boundary instant `2022-01-01T23:59:59.999999`. -/
def recReport : FileRecord :=
  ⟨some "C:\\2022\\Report_2022.pdf", some "2022-03-01T10:00:00",
   some "2022-01-01T23:59:59.999999", some "2022-06-15T08:00:00", some 100⟩

/-- A well-formed record named `beta.txt`, modified at
`2022-01-02T00:00:00`, just past the boundary. -/
def recBeta : FileRecord :=
  ⟨some "C:\\2022\\beta.txt", some "2022-06-15T00:00:00",
   some "2022-01-02T00:00:00", some "2022-06-15T08:00:00", none⟩

/-- A record whose `CreationTime` field is missing; its other two
timestamps are well formed. -/
def recNoCreation : FileRecord :=
  ⟨some "C:\\2022\\Report_2022.pdf", none, some "2022-06-15T10:00:00",
   some "2022-06-15T10:00:00", some 100⟩

/-! ## Order lemmas for dates and datetimes -/

theorem DateTime.lt_iff (a b : DateTime) :
    DateTime.lt a b = true ↔
      (a.year < b.year ∨ (a.year = b.year ∧ (a.month < b.month ∨ (a.month = b.month ∧
       (a.day < b.day ∨ (a.day = b.day ∧ (a.hour < b.hour ∨ (a.hour = b.hour ∧
       (a.minute < b.minute ∨ (a.minute = b.minute ∧ (a.second < b.second ∨
       (a.second = b.second ∧ a.microsecond < b.microsecond)))))))))))) := by
  unfold DateTime.lt
  split_ifs <;> simp only [decide_eq_true_eq] <;> omega

theorem DateTime.le_iff (a b : DateTime) :
    DateTime.le a b = true ↔
      (a.year < b.year ∨ (a.year = b.year ∧ (a.month < b.month ∨ (a.month = b.month ∧
       (a.day < b.day ∨ (a.day = b.day ∧ (a.hour < b.hour ∨ (a.hour = b.hour ∧
       (a.minute < b.minute ∨ (a.minute = b.minute ∧ (a.second < b.second ∨
       (a.second = b.second ∧ a.microsecond ≤ b.microsecond)))))))))))) := by
  unfold DateTime.le
  split_ifs <;> simp only [decide_eq_true_eq] <;> omega

theorem Date.le_lex_iff (a b : Date) :
    Date.le a b = true ↔
      (a.year < b.year ∨ (a.year = b.year ∧ (a.month < b.month ∨
        (a.month = b.month ∧ a.day ≤ b.day)))) := by
  unfold Date.le
  split_ifs <;> simp only [decide_eq_true_eq] <;> omega

theorem DateTime.not_lt (a b : DateTime) :
    DateTime.lt a b = false ↔ DateTime.le b a = true := by
  rw [Bool.eq_false_iff]
  simp only [ne_eq, DateTime.lt_iff, DateTime.le_iff]
  omega

theorem DateTime.not_lt_eq_le (a b : DateTime) :
    (!DateTime.lt a b) = DateTime.le b a := by
  cases hl : DateTime.lt a b <;> cases hle : DateTime.le b a
  · exfalso
    rw [DateTime.not_lt] at hl
    rw [hl] at hle
    simp at hle
  · rfl
  · rfl
  · exfalso
    rw [DateTime.lt_iff] at hl
    rw [DateTime.le_iff] at hle
    omega

theorem DateTime.lt_of_lt_of_le (a b c : DateTime) (h1 : DateTime.lt a b = true)
    (h2 : DateTime.le b c = true) : DateTime.lt a c = true := by
  rw [DateTime.lt_iff] at h1 ⊢
  rw [DateTime.le_iff] at h2
  omega

theorem DateTime.lt_of_le_of_lt (a b c : DateTime) (h1 : DateTime.le a b = true)
    (h2 : DateTime.lt b c = true) : DateTime.lt a c = true := by
  rw [DateTime.le_iff] at h1
  rw [DateTime.lt_iff] at h2 ⊢
  omega

theorem combine_minTime_mono (d e : Date) (h : Date.le d e = true) :
    DateTime.le (combine d minTime) (combine e minTime) = true := by
  rw [Date.le_lex_iff] at h
  rw [DateTime.le_iff]
  dsimp only [combine, minTime]
  omega

theorem combine_maxTime_mono (d e : Date) (h : Date.le d e = true) :
    DateTime.le (combine d maxTime) (combine e maxTime) = true := by
  rw [Date.le_lex_iff] at h
  rw [DateTime.le_iff]
  dsimp only [combine, maxTime]
  omega

/-! ## The range predicates of the code versus the spec vocabulary -/

theorem geStartOfDay_eq (o : Option Date) (t : DateTime) :
    geStartOfDay o t = !failsFrom o t := by
  cases o with
  | none => rfl
  | some d =>
      show DateTime.le (combine d minTime) t = !DateTime.lt t (combine d minTime)
      rw [DateTime.not_lt_eq_le]

theorem leEndOfDay_eq (o : Option Date) (t : DateTime) :
    leEndOfDay o t = !failsTo o t := by
  cases o with
  | none => rfl
  | some d =>
      show DateTime.le t (combine d maxTime) = !DateTime.lt (combine d maxTime) t
      rw [DateTime.not_lt_eq_le]

theorem passes_eq_ranges (cf ct mf mt af ad : Option Date)
    (c m a : DateTime) :
    passes cf ct mf mt af ad c m a =
      (inDateRange cf ct c && inDateRange mf mt m && inDateRange af ad a) := by
  simp only [inDateRange, geStartOfDay_eq, leEndOfDay_eq, passes]
  cases failsFrom cf c <;> cases failsTo ct c <;> cases failsFrom mf m <;>
    cases failsTo mt m <;> cases failsFrom af a <;> cases failsTo ad a <;> rfl

theorem passes_narrow_imp (cfW ctW mfW mtW afW adW cfN ctN mfN mtN afN adN : Option Date)
    (c m a : DateTime)
    (h1 : failsFrom cfW c = true → failsFrom cfN c = true)
    (h2 : failsTo ctW c = true → failsTo ctN c = true)
    (h3 : failsFrom mfW m = true → failsFrom mfN m = true)
    (h4 : failsTo mtW m = true → failsTo mtN m = true)
    (h5 : failsFrom afW a = true → failsFrom afN a = true)
    (h6 : failsTo adW a = true → failsTo adN a = true)
    (hN : passes cfN ctN mfN mtN afN adN c m a = true) :
    passes cfW ctW mfW mtW afW adW c m a = true := by
  simp only [passes] at hN ⊢
  cases hw1 : failsFrom cfW c <;> cases hw2 : failsTo ctW c <;>
    cases hw3 : failsFrom mfW m <;> cases hw4 : failsTo mtW m <;>
    cases hw5 : failsFrom afW a <;> cases hw6 : failsTo adW a <;>
    simp_all

theorem failsFrom_mono (f g : Date) (t : DateTime) (h : Date.le f g = true)
    (hf : failsFrom (some f) t = true) : failsFrom (some g) t = true := by
  simp only [failsFrom] at hf ⊢
  exact DateTime.lt_of_lt_of_le t (combine f minTime) (combine g minTime) hf
    (combine_minTime_mono f g h)

theorem failsTo_mono (f g : Date) (t : DateTime) (h : Date.le f g = true)
    (hf : failsTo (some g) t = true) : failsTo (some f) t = true := by
  simp only [failsTo] at hf ⊢
  exact DateTime.lt_of_le_of_lt (combine f maxTime) (combine g maxTime) t
    (combine_maxTime_mono f g h) hf

/-! ## Unanchored search characterization -/

theorem searchIn_iff (ci : Bool) (r : RE) (s : List Char) :
    searchIn ci r s = true ↔ ∃ i, matchHere ci r (s.drop i) = true := by
  induction s with
  | nil =>
      constructor
      · intro h
        exact ⟨0, h⟩
      · rintro ⟨i, hi⟩
        simpa [List.drop_nil] using hi
  | cons c cs ih =>
      simp only [searchIn, Bool.or_eq_true]
      constructor
      · rintro (h | h)
        · exact ⟨0, h⟩
        · obtain ⟨i, hi⟩ := ih.mp h
          exact ⟨i + 1, by simpa [List.drop_succ_cons] using hi⟩
      · rintro ⟨i, hi⟩
        cases i with
        | zero => exact Or.inl (by simpa using hi)
        | succ j => exact Or.inr (ih.mpr ⟨j, by simpa [List.drop_succ_cons] using hi⟩)

/-! ## Lemmas about the filtering loop -/

theorem filterRecords_sublist (check : FileRecord → Except FilterError Bool)
    (rs out : List FileRecord) (h : filterRecords check rs = .ok out) :
    out.Sublist rs := by
  induction rs generalizing out with
  | nil =>
      simp only [filterRecords, Except.ok.injEq] at h
      subst h
      exact List.Sublist.refl []
  | cons x xs ih =>
      unfold filterRecords at h
      cases hc : check x with
      | error e => rw [hc] at h; cases h
      | ok keep =>
          rw [hc] at h
          cases hr : filterRecords check xs with
          | error e => rw [hr] at h; cases h
          | ok tail =>
              rw [hr] at h
              cases keep with
              | false =>
                  simp only [if_neg, Bool.false_eq_true, if_false,
                    Except.ok.injEq] at h
                  subst h
                  exact List.Sublist.cons x (ih tail hr)
              | true =>
                  simp only [if_pos, if_true, Except.ok.injEq] at h
                  subst h
                  exact List.Sublist.cons₂ x (ih tail hr)

theorem filterRecords_mem (check : FileRecord → Except FilterError Bool)
    (rs out : List FileRecord) (h : filterRecords check rs = .ok out) :
    ∀ x ∈ out, check x = .ok true := by
  induction rs generalizing out with
  | nil =>
      simp only [filterRecords, Except.ok.injEq] at h
      subst h
      intro x hx
      cases hx
  | cons y ys ih =>
      unfold filterRecords at h
      cases hc : check y with
      | error e => rw [hc] at h; cases h
      | ok keep =>
          rw [hc] at h
          cases hr : filterRecords check ys with
          | error e => rw [hr] at h; cases h
          | ok tail =>
              rw [hr] at h
              cases keep with
              | false =>
                  simp only [Bool.false_eq_true, if_false, Except.ok.injEq] at h
                  subst h
                  exact ih tail hr
              | true =>
                  simp only [if_true, Except.ok.injEq] at h
                  subst h
                  intro x hx
                  cases hx with
                  | head => exact hc
                  | tail _ hx2 => exact ih tail hr x hx2

theorem filterRecords_all_true (check : FileRecord → Except FilterError Bool)
    (rs : List FileRecord) (h : ∀ x ∈ rs, check x = .ok true) :
    filterRecords check rs = .ok rs := by
  induction rs with
  | nil => rfl
  | cons x xs ih =>
      unfold filterRecords
      rw [h x (by simp), ih (fun y hy => h y (by simp [hy]))]
      simp

theorem filterRecords_mono (chW chN : FileRecord → Except FilterError Bool)
    (hmono : ∀ x bw, chW x = .ok bw →
      ∃ bn, chN x = .ok bn ∧ (bn = true → bw = true)) :
    ∀ rs lw, filterRecords chW rs = .ok lw →
      ∃ ln, filterRecords chN rs = .ok ln ∧ ln.length ≤ lw.length := by
  intro rs
  induction rs with
  | nil =>
      intro lw h
      simp only [filterRecords, Except.ok.injEq] at h
      subst h
      exact ⟨[], rfl, Nat.le_refl 0⟩
  | cons x xs ih =>
      intro lw h
      unfold filterRecords at h ⊢
      cases hc : chW x with
      | error e => rw [hc] at h; cases h
      | ok bw =>
          rw [hc] at h
          cases hr : filterRecords chW xs with
          | error e => rw [hr] at h; cases h
          | ok tailW =>
              rw [hr] at h
              obtain ⟨bn, hcn, himp⟩ := hmono x bw hc
              obtain ⟨tailN, hrn, hlen⟩ := ih tailW hr
              rw [hcn, hrn]
              refine ⟨if bn = true then x :: tailN else tailN, rfl, ?_⟩
              have hlw : (if bw = true then x :: tailW else tailW) = lw := by
                injection h
              subst hlw
              cases hbn : bn with
              | false =>
                  cases bw <;> simp <;> omega
              | true =>
                  rw [himp hbn]
                  simpa using hlen

/-! ## Unfolding the check of one record -/

theorem checkRecord_of_parses (np : Option String) (cf ct mf mt af ad : Option Date)
    (item : FileRecord) (b : Bool) (c m a : DateTime)
    (hn : nameCheck np item = .ok b)
    (hc : parseTimestamp (item.creationTime.getD "") = .ok c)
    (hm : parseTimestamp (item.lastWriteTime.getD "") = .ok m)
    (ha : parseTimestamp (item.lastAccessTime.getD "") = .ok a) :
    checkRecord np cf ct mf mt af ad item =
      .ok (b && passes cf ct mf mt af ad c m a) := by
  unfold checkRecord
  rw [hn]
  cases b with
  | false => simp
  | true => rw [hc, hm, ha]; simp

theorem filterRecords_singleton (check : FileRecord → Except FilterError Bool)
    (x : FileRecord) (b : Bool) (h : check x = .ok b) :
    filterRecords check [x] = .ok (if b then [x] else []) := by
  unfold filterRecords
  rw [h]
  rfl

theorem checkRecord_narrow (np : Option String)
    (cfW ctW mfW mtW afW adW cfN ctN mfN mtN afN adN : Option Date)
    (h1 : ∀ t, failsFrom cfW t = true → failsFrom cfN t = true)
    (h2 : ∀ t, failsTo ctW t = true → failsTo ctN t = true)
    (h3 : ∀ t, failsFrom mfW t = true → failsFrom mfN t = true)
    (h4 : ∀ t, failsTo mtW t = true → failsTo mtN t = true)
    (h5 : ∀ t, failsFrom afW t = true → failsFrom afN t = true)
    (h6 : ∀ t, failsTo adW t = true → failsTo adN t = true)
    (x : FileRecord) (bw : Bool)
    (hw : checkRecord np cfW ctW mfW mtW afW adW x = .ok bw) :
    ∃ bn, checkRecord np cfN ctN mfN mtN afN adN x = .ok bn ∧
      (bn = true → bw = true) := by
  unfold checkRecord at hw ⊢
  cases hn : nameCheck np x with
  | error e => rw [hn] at hw; exact absurd hw (by simp)
  | ok nb =>
      rw [hn] at hw
      cases nb with
      | false =>
          injection hw with hbw
          exact ⟨false, rfl, fun hf => nomatch hf⟩
      | true =>
          cases hc : parseTimestamp (x.creationTime.getD "") with
          | error e => rw [hc] at hw; exact absurd hw (by simp)
          | ok c =>
              rw [hc] at hw
              cases hm : parseTimestamp (x.lastWriteTime.getD "") with
              | error e => rw [hm] at hw; exact absurd hw (by simp)
              | ok m =>
                  rw [hm] at hw
                  cases ha : parseTimestamp (x.lastAccessTime.getD "") with
                  | error e => rw [ha] at hw; exact absurd hw (by simp)
                  | ok a =>
                      rw [ha] at hw
                      injection hw with hbw
                      refine ⟨passes cfN ctN mfN mtN afN adN c m a, rfl, ?_⟩
                      intro hbn
                      rw [← hbw]
                      exact passes_narrow_imp cfW ctW mfW mtW afW adW
                        cfN ctN mfN mtN afN adN c m a
                        (h1 c) (h2 c) (h3 m) (h4 m) (h5 a) (h6 a) hbn

/-! ## The claims -/

/-- C1 (code bug): the spec requires that a record whose timestamp field is
missing or malformed must not crash the engine and must stay eligible for
the predicates over its other fields. The code instead parses all three
timestamp fields unconditionally (lines 119-121), so a record with a
missing `CreationTime` raises `ValueError` from
`datetime.fromisoformat('')` as soon as it passes the name predicate —
even though its well-formed modification time lies inside the configured
modified range, as the second conjunct shows. -/
theorem creation_parse_error_on_missing_timestamp :
    filter_results [recNoCreation] (some "report") none none
      (some ⟨2022, 1, 1⟩) (some ⟨2022, 12, 31⟩) none none =
      .error (.valueError "") ∧
    inDateRange (some ⟨2022, 1, 1⟩) (some ⟨2022, 12, 31⟩)
      ⟨2022, 6, 15, 10, 0, 0, 0⟩ = true := by
  exact ⟨rfl, rfl⟩

/-- C2 (counterexample): with an empty record list, `filter_results`
returns `ok []` and raises no error even though the name pattern `[` is
not a valid regular expression — the claim asserts the error is raised
even when the record list is empty. -/
theorem invalid_pattern_empty_list_no_error :
    filter_results [] (some "[") none none none none none none = .ok [] ∧
    reCompile "[" = .error (.invalid "unterminated character set") := by
  exact ⟨rfl, rfl⟩

/-- C2 (amended): if the name pattern fails to compile, `filter_results`
raises the pattern error while examining the first record of a non-empty
record list — before any timestamp is parsed or date predicate evaluated —
rather than before any record is examined; with an empty record list no
error is raised. -/
theorem invalid_pattern_raises_at_first_record (p msg : String)
    (item : FileRecord) (rest : List FileRecord) (cf ct mf mt af ad : Option Date)
    (h : reCompile p = .error (.invalid msg)) :
    filter_results (item :: rest) (some p) cf ct mf mt af ad =
      .error (.patternError (.invalid msg)) := by
  have hp : ¬(p = "") := by
    intro he
    rw [he] at h
    have hok : reCompile "" = .ok RE.eps := rfl
    rw [hok] at h
    simp at h
  have hname : nameCheck (some p) item = .error (.patternError (.invalid msg)) := by
    simp only [nameCheck, reSearch, if_neg hp, h]
  have hcheck : checkRecord (some p) cf ct mf mt af ad item =
      .error (.patternError (.invalid msg)) := by
    unfold checkRecord
    rw [hname]
  unfold filter_results filterRecords
  rw [hcheck]

/-- C2 witness: the amended claim at the concrete invalid pattern `[`. -/
theorem invalid_pattern_raises_at_first_record_witness :
    reCompile "[" = .error (.invalid "unterminated character set") ∧
    filter_results [recReport] (some "[") none none none none none none =
      .error (.patternError (.invalid "unterminated character set")) := by
  exact ⟨rfl, invalid_pattern_raises_at_first_record "["
    "unterminated character set" recReport [] none none none none none none rfl⟩

/-- C3: for a record all of whose timestamps parse, the record is in the
output of `filter_results` exactly when the name predicate holds and every
configured range predicate holds, conjunctively; a configured lower bound
requires the timestamp to be at or after the bound's day at
`00:00:00.000000` and a configured upper bound requires it to be at or
before the bound's day at `23:59:59.999999`, with an absent bound
unconstrained on its side. -/
theorem date_range_boundary_semantics (np : Option String)
    (cf ct mf mt af ad : Option Date) (item : FileRecord) (b : Bool)
    (c m a : DateTime)
    (hn : nameCheck np item = .ok b)
    (hc : parseTimestamp (item.creationTime.getD "") = .ok c)
    (hm : parseTimestamp (item.lastWriteTime.getD "") = .ok m)
    (ha : parseTimestamp (item.lastAccessTime.getD "") = .ok a) :
    filter_results [item] np cf ct mf mt af ad =
      .ok (if b && (inDateRange cf ct c && inDateRange mf mt m &&
                    inDateRange af ad a)
           then [item] else []) := by
  have h1 : checkRecord np cf ct mf mt af ad item =
      .ok (b && (inDateRange cf ct c && inDateRange mf mt m &&
                 inDateRange af ad a)) := by
    rw [checkRecord_of_parses np cf ct mf mt af ad item b c m a hn hc hm ha,
      passes_eq_ranges]
  unfold filter_results
  rw [filterRecords_singleton _ _ _ h1]

/-- C3 witness: a record modified at exactly `2022-01-01T23:59:59.999999`
is included by the modified range `[2022-01-01, 2022-01-01]`, and one
modified at `2022-01-02T00:00:00` is excluded by it. -/
theorem date_range_boundary_semantics_witness :
    nameCheck none recReport = .ok true ∧
    parseTimestamp (recReport.lastWriteTime.getD "") =
      .ok ⟨2022, 1, 1, 23, 59, 59, 999999⟩ ∧
    parseTimestamp (recBeta.lastWriteTime.getD "") =
      .ok ⟨2022, 1, 2, 0, 0, 0, 0⟩ ∧
    filter_results [recReport] none none none (some ⟨2022, 1, 1⟩)
      (some ⟨2022, 1, 1⟩) none none = .ok [recReport] ∧
    filter_results [recBeta] none none none (some ⟨2022, 1, 1⟩)
      (some ⟨2022, 1, 1⟩) none none = .ok [] := by
  refine ⟨rfl, rfl, rfl, ?_, ?_⟩
  · rw [date_range_boundary_semantics none none none (some ⟨2022, 1, 1⟩)
      (some ⟨2022, 1, 1⟩) none none recReport true
      ⟨2022, 3, 1, 10, 0, 0, 0⟩ ⟨2022, 1, 1, 23, 59, 59, 999999⟩
      ⟨2022, 6, 15, 8, 0, 0, 0⟩ rfl rfl rfl rfl]
    rfl
  · rw [date_range_boundary_semantics none none none (some ⟨2022, 1, 1⟩)
      (some ⟨2022, 1, 1⟩) none none recBeta true
      ⟨2022, 6, 15, 0, 0, 0, 0⟩ ⟨2022, 1, 2, 0, 0, 0, 0⟩
      ⟨2022, 6, 15, 8, 0, 0, 0⟩ rfl rfl rfl rfl]
    rfl

/-- C4 (counterexample): the filter specification with no field set is not
the identity on every input list: on a record whose `CreationTime` is
missing, `filter_results` raises `ValueError` (the timestamps are parsed
on lines 119-121 even when no date bound is configured) instead of
returning the record. -/
theorem empty_spec_not_identity_on_malformed :
    filter_results [recNoCreation] none none none none none none none =
      .error (.valueError "") ∧
    filter_results [recNoCreation] none none none none none none none ≠
      .ok [recNoCreation] := by
  refine ⟨rfl, fun hcontra => ?_⟩
  rw [show filter_results [recNoCreation] none none none none none none none =
    Except.error (FilterError.valueError "") from rfl] at hcontra
  exact Except.noConfusion hcontra

/-- C4 (amended): for every input list all of whose records carry three
parseable timestamp strings, `filter_results` with no filter field set
returns every input record, unchanged and in the original order. -/
theorem empty_spec_identity_of_parsable (rs : List FileRecord)
    (h : ∀ item ∈ rs,
      (∃ c, parseTimestamp (item.creationTime.getD "") = .ok c) ∧
      (∃ m, parseTimestamp (item.lastWriteTime.getD "") = .ok m) ∧
      (∃ a, parseTimestamp (item.lastAccessTime.getD "") = .ok a)) :
    filter_results rs none none none none none none none = .ok rs := by
  unfold filter_results
  apply filterRecords_all_true
  intro x hx
  obtain ⟨⟨c, hc⟩, ⟨m, hm⟩, ⟨a, ha⟩⟩ := h x hx
  rw [checkRecord_of_parses none none none none none none none x true c m a
    rfl hc hm ha]
  rfl

/-- C4 witness: the identity at a concrete two-record list. -/
theorem empty_spec_identity_of_parsable_witness :
    (∀ item ∈ [recReport, recBeta],
      (∃ c, parseTimestamp (item.creationTime.getD "") = .ok c) ∧
      (∃ m, parseTimestamp (item.lastWriteTime.getD "") = .ok m) ∧
      (∃ a, parseTimestamp (item.lastAccessTime.getD "") = .ok a)) ∧
    filter_results [recReport, recBeta] none none none none none none none =
      .ok [recReport, recBeta] := by
  have h : ∀ item ∈ [recReport, recBeta],
      (∃ c, parseTimestamp (item.creationTime.getD "") = .ok c) ∧
      (∃ m, parseTimestamp (item.lastWriteTime.getD "") = .ok m) ∧
      (∃ a, parseTimestamp (item.lastAccessTime.getD "") = .ok a) := by
    intro item hitem
    simp only [List.mem_cons, List.not_mem_nil, or_false] at hitem
    rcases hitem with rfl | rfl
    · exact ⟨⟨_, rfl⟩, ⟨_, rfl⟩, ⟨_, rfl⟩⟩
    · exact ⟨⟨_, rfl⟩, ⟨_, rfl⟩, ⟨_, rfl⟩⟩
  exact ⟨h, empty_spec_identity_of_parsable [recReport, recBeta] h⟩

/-- C5: with a non-empty name pattern that compiles, the name predicate of
`filter_results` is exactly the case-insensitive search of the compiled
pattern over the basename of the record's `FullName` — never the full
path — and that search is unanchored: it succeeds precisely when the
pattern matches starting at some position of the basename. -/
theorem name_predicate_basename_search (p : String) (item : FileRecord)
    (r : RE) (hp : p ≠ "") (hr : reCompile p = .ok r) :
    nameCheck (some p) item =
      .ok (searchIn true r (basename (item.fullName.getD "")).data) ∧
    (searchIn true r (basename (item.fullName.getD "")).data = true ↔
      ∃ i, matchHere true r ((basename (item.fullName.getD "")).data.drop i) =
        true) := by
  constructor
  · simp only [nameCheck, reSearch, if_neg hp, hr]
  · exact searchIn_iff true r _

/-- C5 witness: the pattern `report` matches the record whose basename is
`Report_2022.pdf`, case-insensitively. -/
theorem name_predicate_basename_search_witness :
    "report" ≠ "" ∧
    (∃ r, reCompile "report" = .ok r ∧
      nameCheck (some "report") recReport = .ok true) := by
  refine ⟨by decide, ⟨_, rfl, ?_⟩⟩
  exact Eq.trans
    (name_predicate_basename_search "report" recReport _ (by decide) rfl).1
    (by rfl)

/-- C6: whenever `filter_results` returns a result, the output is a
subsequence of the input: every output record occurs in the input and the
original relative order is preserved. -/
theorem filter_output_sublist (rs : List FileRecord) (np : Option String)
    (cf ct mf mt af ad : Option Date) (out : List FileRecord)
    (h : filter_results rs np cf ct mf mt af ad = .ok out) :
    out.Sublist rs := by
  unfold filter_results at h
  exact filterRecords_sublist _ rs out h

/-- C6 witness: the output for the pattern `report` on a two-record list
is a subsequence of the input. -/
theorem filter_output_sublist_witness :
    filter_results [recReport, recBeta] (some "report") none none none none
      none none = .ok [recReport] ∧
    [recReport].Sublist [recReport, recBeta] := by
  refine ⟨rfl, ?_⟩
  exact filter_output_sublist [recReport, recBeta] (some "report") none none
    none none none none [recReport] rfl

/-- C7: narrowing one of the three date ranges — replacing `[f, t]` by a
contained `[g, u]` with `f ≤ g` and `u ≤ t` — while keeping the record
list, the name pattern and the other bounds fixed never increases the
number of records returned, whichever of the three ranges is narrowed. -/
theorem narrowing_date_range_monotone (rs : List FileRecord)
    (np : Option String) (o1 o2 o3 o4 : Option Date) (f g t u : Date)
    (lwC lnC lwM lnM lwA lnA : List FileRecord)
    (hf : Date.le f g = true) (ht : Date.le u t = true)
    (hwC : filter_results rs np (some f) (some t) o1 o2 o3 o4 = .ok lwC)
    (hnC : filter_results rs np (some g) (some u) o1 o2 o3 o4 = .ok lnC)
    (hwM : filter_results rs np o1 o2 (some f) (some t) o3 o4 = .ok lwM)
    (hnM : filter_results rs np o1 o2 (some g) (some u) o3 o4 = .ok lnM)
    (hwA : filter_results rs np o1 o2 o3 o4 (some f) (some t) = .ok lwA)
    (hnA : filter_results rs np o1 o2 o3 o4 (some g) (some u) = .ok lnA) :
    lnC.length ≤ lwC.length ∧ lnM.length ≤ lwM.length ∧
      lnA.length ≤ lwA.length := by
  have hfrom : ∀ tm, failsFrom (some f) tm = true → failsFrom (some g) tm = true :=
    fun tm => failsFrom_mono f g tm hf
  have hto : ∀ tm, failsTo (some t) tm = true → failsTo (some u) tm = true :=
    fun tm => failsTo_mono u t tm ht
  have hid : ∀ o : Option Date, ∀ tm, failsFrom o tm = true → failsFrom o tm = true :=
    fun _ _ h => h
  have hid2 : ∀ o : Option Date, ∀ tm, failsTo o tm = true → failsTo o tm = true :=
    fun _ _ h => h
  unfold filter_results at hwC hnC hwM hnM hwA hnA
  refine ⟨?_, ?_, ?_⟩
  · obtain ⟨ln, hln, hlen⟩ := filterRecords_mono
      (checkRecord np (some f) (some t) o1 o2 o3 o4)
      (checkRecord np (some g) (some u) o1 o2 o3 o4)
      (fun x bw hw => checkRecord_narrow np (some f) (some t) o1 o2 o3 o4
        (some g) (some u) o1 o2 o3 o4 hfrom hto (hid o1) (hid2 o2) (hid o3)
        (hid2 o4) x bw hw) rs lwC hwC
    rw [hln] at hnC
    injection hnC with he
    rw [← he]
    exact hlen
  · obtain ⟨ln, hln, hlen⟩ := filterRecords_mono
      (checkRecord np o1 o2 (some f) (some t) o3 o4)
      (checkRecord np o1 o2 (some g) (some u) o3 o4)
      (fun x bw hw => checkRecord_narrow np o1 o2 (some f) (some t) o3 o4
        o1 o2 (some g) (some u) o3 o4 (hid o1) (hid2 o2) hfrom hto (hid o3)
        (hid2 o4) x bw hw) rs lwM hwM
    rw [hln] at hnM
    injection hnM with he
    rw [← he]
    exact hlen
  · obtain ⟨ln, hln, hlen⟩ := filterRecords_mono
      (checkRecord np o1 o2 o3 o4 (some f) (some t))
      (checkRecord np o1 o2 o3 o4 (some g) (some u))
      (fun x bw hw => checkRecord_narrow np o1 o2 o3 o4 (some f) (some t)
        o1 o2 o3 o4 (some g) (some u) (hid o1) (hid2 o2) (hid o3) (hid2 o4)
        hfrom hto x bw hw) rs lwA hwA
    rw [hln] at hnA
    injection hnA with he
    rw [← he]
    exact hlen

/-- C7 witness: narrowing the year range `[2022-01-01, 2022-12-31]` to the
June range `[2022-06-01, 2022-06-30]` on a concrete two-record list, in
each of the three date-range positions. -/
theorem narrowing_date_range_monotone_witness :
    Date.le ⟨2022, 1, 1⟩ ⟨2022, 6, 1⟩ = true ∧
    Date.le ⟨2022, 6, 30⟩ ⟨2022, 12, 31⟩ = true ∧
    ([recBeta].length ≤ [recReport, recBeta].length ∧
     ([] : List FileRecord).length ≤ [recReport, recBeta].length ∧
     [recReport, recBeta].length ≤ [recReport, recBeta].length) := by
  refine ⟨by decide, by decide, ?_⟩
  exact narrowing_date_range_monotone [recReport, recBeta] none none none
    none none ⟨2022, 1, 1⟩ ⟨2022, 6, 1⟩ ⟨2022, 12, 31⟩ ⟨2022, 6, 30⟩
    [recReport, recBeta] [recBeta] [recReport, recBeta] []
    [recReport, recBeta] [recReport, recBeta]
    (by decide) (by decide) rfl rfl rfl rfl rfl rfl

/-- C8: `filter_results` is idempotent: when an application returns an
output list, applying the same specification to that output returns it
unchanged. -/
theorem filter_idempotent (rs : List FileRecord) (np : Option String)
    (cf ct mf mt af ad : Option Date) (l : List FileRecord)
    (h : filter_results rs np cf ct mf mt af ad = .ok l) :
    filter_results l np cf ct mf mt af ad = .ok l := by
  unfold filter_results at h ⊢
  exact filterRecords_all_true _ l (filterRecords_mem _ rs l h)

/-- C8 witness: idempotence at a concrete list and specification. -/
theorem filter_idempotent_witness :
    filter_results [recReport, recBeta] (some "report") none none none none
      none none = .ok [recReport] ∧
    filter_results [recReport] (some "report") none none none none
      none none = .ok [recReport] := by
  refine ⟨rfl, ?_⟩
  exact filter_idempotent [recReport, recBeta] (some "report") none none
    none none none none [recReport] rfl

/-- C9: calling `filter_results` with the empty string as name pattern
behaves identically to calling it with no name pattern, for every record
list and every setting of the date bounds: the Python guard
`if name_pattern:` treats the empty string like `None`. -/
theorem empty_pattern_same_as_none (rs : List FileRecord)
    (cf ct mf mt af ad : Option Date) :
    filter_results rs (some "") cf ct mf mt af ad =
      filter_results rs none cf ct mf mt af ad := by
  have hch : ∀ x, checkRecord (some "") cf ct mf mt af ad x =
      checkRecord none cf ct mf mt af ad x := fun _ => rfl
  unfold filter_results
  induction rs with
  | nil => rfl
  | cons x xs ih =>
      unfold filterRecords
      rw [hch x, ih]

/-- C10: on the empty record list, `filter_results` returns the empty list
and raises no error, for every filter specification — including name
patterns that do not compile, since the loop body never runs. -/
theorem empty_input_returns_empty (np : Option String)
    (cf ct mf mt af ad : Option Date) :
    filter_results [] np cf ct mf mt af ad = .ok [] := rfl

end FileFilter
